import Mathlib

/-!
Verification of the `recordio` record-framing codec.

The repository contains two wire-format variants of the codec:

* the snappy variant: 12-byte record header
  (`bodyLength`, `flags`, `headerChecksum`), body followed by a 4-byte
  CRC32-IEEE trailer checksum, snappy compression unless the
  `NoCompression` flag (bit 0) is set;
* the gzip variant: 16-byte record header
  (`bodyLength`, `flags`, `bodyChecksum`, `headerChecksum`), gzip
  compression when `GzipCompress` (bit 0) is set, body checksum verified
  when `BodyChecksum` (bit 1) is set on both the record and the reader.

Bytes are modelled as natural numbers below 256; byte streams as
`List Nat`.  The compression codecs (snappy, gzip) are external
collaborators and are passed in as function parameters.  CRC32-IEEE is an
external library primitive, modelled by the standard reflected
bit-at-a-time algorithm.
-/

namespace Recordio

/-! ### CRC32-IEEE -/

/-- The reflected CRC32-IEEE polynomial. -/
def crcPoly : Nat := 0xEDB88320

/-- One bit step of the reflected CRC32-IEEE algorithm. -/
def crcStep (c : Nat) : Nat :=
  (c >>> 1) ^^^ (if c.testBit 0 then crcPoly else 0)

/-- `n` bit steps. -/
def crcStepN : Nat → Nat → Nat
  | 0, c => c
  | n + 1, c => crcStepN n (crcStep c)

/-- Absorb one byte into the CRC state: xor it in, then do 8 bit steps. -/
def crcUpdate (c b : Nat) : Nat := crcStepN 8 (c ^^^ b)

/-- CRC32-IEEE of a byte sequence (initial value and final xor
`0xFFFFFFFF`). -/
def crc32 (data : List Nat) : Nat :=
  (data.foldl crcUpdate 0xFFFFFFFF) ^^^ 0xFFFFFFFF

/-! ### Little-endian 32-bit integers -/

/-- `binary.LittleEndian.PutUint32`: the four little-endian bytes of
`x mod 2^32`. -/
def toLE4 (x : Nat) : List Nat :=
  [x % 256, (x / 256) % 256, (x / 65536) % 256, (x / 16777216) % 256]

/-- `binary.LittleEndian.Uint32`: read a 32-bit little-endian integer from
the first four bytes of a list. -/
def getLE4 (l : List Nat) : Nat :=
  l.getD 0 0 + 256 * l.getD 1 0 + 65536 * l.getD 2 0 + 16777216 * l.getD 3 0

/-! ### Errors

One error type serves both variants.  `eofMark` stands for Go's `io.EOF`
sentinel, `unexpectedEOFMark` for `io.ErrUnexpectedEOF`, `panicAbort` for
a Go `panic` (program abort, not an error value). -/

inductive RecErr where
  | readBytesE      -- ErrReadBytes
  | writeBytesE     -- ErrWriteBytes
  | checksumE       -- ErrChecksum
  | eofMark         -- io.EOF
  | unexpectedEOFMark -- io.ErrUnexpectedEOF
  | panicAbort      -- Go panic: the program aborts, no error value
  deriving DecidableEq, Repr

/-! ### Snappy-variant header codec (12 bytes) -/

structure RecordHeader where
  bodyLength : Nat
  flags : Nat
  deriving DecidableEq, Repr

/-- `recordHeader.encode`: 12 bytes; little-endian `bodyLength`, `flags`,
then CRC32 of the first eight bytes. -/
def RecordHeader.encode (h : RecordHeader) : List Nat :=
  toLE4 h.bodyLength ++ toLE4 h.flags ++
    toLE4 (crc32 (toLE4 h.bodyLength ++ toLE4 h.flags))

/-- Result of `recordHeader.decode`, which panics (aborts) when the buffer
is not exactly 12 bytes. -/
inductive DecodeResult where
  | panicked
  | failed (e : RecErr)
  | ok (h : RecordHeader)
  deriving DecidableEq, Repr

/-- `recordHeader.decode`: panics unless the buffer is exactly 12 bytes;
then verifies the trailing header checksum before assigning any field. -/
def RecordHeader.decode (buf : List Nat) : DecodeResult :=
  if buf.length ≠ 12 then .panicked
  else if getLE4 (buf.drop 8) ≠ crc32 (buf.take 8) then .failed .checksumE
  else .ok ⟨getLE4 (buf.take 4), getLE4 ((buf.drop 4).take 4)⟩

/-! ### Gzip-variant header codec (16 bytes) -/

structure RecordHeader16 where
  bodyLength : Nat
  flags : Nat
  bodyChecksum : Nat
  deriving DecidableEq, Repr

/-- `recordHeader.MarshalBinary`: 16 bytes; little-endian `bodyLength`,
`flags`, `bodyChecksum`, then CRC32 of the first twelve bytes. -/
def RecordHeader16.marshalBinary (h : RecordHeader16) : List Nat :=
  toLE4 h.bodyLength ++ toLE4 h.flags ++ toLE4 h.bodyChecksum ++
    toLE4 (crc32 (toLE4 h.bodyLength ++ toLE4 h.flags ++ toLE4 h.bodyChecksum))

/-- `recordHeader.UnmarshalBinary`: errors with `ErrReadBytes` when fewer
than 16 bytes are supplied, verifies the header checksum before assigning
any field, then decodes the three fields. -/
def RecordHeader16.unmarshalBinary (data : List Nat) : Except RecErr RecordHeader16 :=
  if data.length < 16 then .error .readBytesE
  else if getLE4 (data.drop 12) ≠ crc32 (data.take 12) then .error .checksumE
  else .ok ⟨getLE4 (data.take 4), getLE4 ((data.drop 4).take 4),
            getLE4 ((data.drop 8).take 4)⟩

/-! ### CRC32 is GF(2)-linear; a single flipped bit always changes it -/

theorem xor_shiftRight_one (a b : Nat) : (a ^^^ b) >>> 1 = a >>> 1 ^^^ b >>> 1 := by
  apply Nat.eq_of_testBit_eq
  intro i
  simp

theorem xor_left_comm (a b c : Nat) : a ^^^ (b ^^^ c) = b ^^^ (a ^^^ c) := by
  rw [← Nat.xor_assoc, Nat.xor_comm a b, Nat.xor_assoc]

theorem xor_cancel_left {a d : Nat} (h : a ^^^ d = a) : d = 0 := by
  have h2 : a ^^^ (a ^^^ d) = a ^^^ a := by rw [h]
  rwa [← Nat.xor_assoc, Nat.xor_self, Nat.zero_xor] at h2

theorem xor_xor_cancel (a b : Nat) : a ^^^ (a ^^^ b) = b := by
  rw [← Nat.xor_assoc, Nat.xor_self, Nat.zero_xor]

theorem crcStep_xor (a b : Nat) : crcStep (a ^^^ b) = crcStep a ^^^ crcStep b := by
  unfold crcStep
  rw [Nat.testBit_xor a b 0, xor_shiftRight_one]
  cases h1 : a.testBit 0 <;> cases h2 : b.testBit 0 <;>
    simp [Nat.xor_assoc, Nat.xor_comm, xor_left_comm, xor_xor_cancel]

theorem crcStepN_xor (n a b : Nat) :
    crcStepN n (a ^^^ b) = crcStepN n a ^^^ crcStepN n b := by
  induction n generalizing a b with
  | zero => rfl
  | succ n ih => simp [crcStepN, crcStep_xor, ih]

theorem crcStepN_add (m n c : Nat) :
    crcStepN (m + n) c = crcStepN m (crcStepN n c) := by
  induction n generalizing c with
  | zero => rfl
  | succ n ih =>
    have : m + (n + 1) = (m + n) + 1 := by omega
    rw [this]
    simp [crcStepN, ih]

theorem crcStep_lt {c : Nat} (h : c < 2 ^ 32) : crcStep c < 2 ^ 32 := by
  unfold crcStep
  apply Nat.xor_lt_two_pow
  · have hle : c >>> 1 ≤ c := by
      rw [Nat.shiftRight_eq_div_pow]
      exact Nat.div_le_self _ _
    exact Nat.lt_of_le_of_lt hle h
  · split
    · norm_num [crcPoly]
    · positivity

theorem crcStepN_lt {c : Nat} (n : Nat) (h : c < 2 ^ 32) : crcStepN n c < 2 ^ 32 := by
  induction n generalizing c with
  | zero => exact h
  | succ n ih => exact ih (crcStep_lt h)

theorem crcStep_eq_zero {c : Nat} (hlt : c < 2 ^ 32) (h : crcStep c = 0) : c = 0 := by
  unfold crcStep at h
  have hdiv : c >>> 1 = c / 2 := by
    rw [Nat.shiftRight_eq_div_pow]
  have hlt' : c < 4294967296 := by norm_num at hlt; exact hlt
  cases hb : c.testBit 0 with
  | false =>
    rw [hb] at h
    simp only [Bool.false_eq_true, if_false] at h
    rw [Nat.xor_zero, hdiv] at h
    rw [Nat.testBit_zero] at hb
    simp only [decide_eq_false_iff_not] at hb
    omega
  | true =>
    rw [hb] at h
    simp only [if_true] at h
    have h2 : c >>> 1 = crcPoly := Nat.xor_eq_zero.mp h
    rw [hdiv] at h2
    unfold crcPoly at h2
    omega

theorem crcStepN_ne_zero {e : Nat} (n : Nat) (hlt : e < 2 ^ 32) (hne : e ≠ 0) :
    crcStepN n e ≠ 0 := by
  induction n generalizing e with
  | zero => exact hne
  | succ n ih =>
    simp only [crcStepN]
    refine ih (crcStep_lt hlt) ?_
    intro hz
    exact hne (crcStep_eq_zero hlt hz)

theorem crcUpdate_xor (c d b : Nat) :
    crcUpdate (c ^^^ d) b = crcUpdate c b ^^^ crcStepN 8 d := by
  unfold crcUpdate
  rw [Nat.xor_comm c d, Nat.xor_assoc, Nat.xor_comm d (c ^^^ b), crcStepN_xor]

theorem foldl_crcUpdate_xor (l : List Nat) (c d : Nat) :
    l.foldl crcUpdate (c ^^^ d) = l.foldl crcUpdate c ^^^ crcStepN (8 * l.length) d := by
  induction l generalizing c d with
  | nil => simp [crcStepN]
  | cons b t ih =>
    simp only [List.foldl_cons, List.length_cons]
    rw [crcUpdate_xor, ih]
    rw [← crcStepN_add]
    congr 1 <;> omega

/-- Flip bit `j` of byte `i` of a byte sequence. -/
def flipBit (m : List Nat) (i j : Nat) : List Nat :=
  m.set i (m.getD i 0 ^^^ 2 ^ j)

theorem crcUpdate_xor_right (c b e : Nat) :
    crcUpdate c (b ^^^ e) = crcUpdate c b ^^^ crcStepN 8 e := by
  unfold crcUpdate
  rw [← crcStepN_xor, ← Nat.xor_assoc]

theorem foldl_crcUpdate_flipBit (m : List Nat) (i j c : Nat) (hi : i < m.length) :
    (flipBit m i j).foldl crcUpdate c =
      m.foldl crcUpdate c ^^^ crcStepN (8 * (m.length - i)) (2 ^ j) := by
  induction m generalizing i c with
  | nil => simp at hi
  | cons b t ih =>
    cases i with
    | zero =>
      simp only [flipBit, List.set_cons_zero, List.getD_cons_zero, List.foldl_cons,
        List.length_cons, Nat.sub_zero]
      rw [crcUpdate_xor_right, foldl_crcUpdate_xor, ← crcStepN_add]
      congr 1 <;> omega
    | succ i =>
      simp only [flipBit, List.set_cons_succ, List.getD_cons_succ, List.foldl_cons,
        List.length_cons]
      have hi' : i < t.length := by simpa using hi
      have hih := ih i (crcUpdate c b) hi'
      simp only [flipBit] at hih
      rw [hih]
      congr 2 <;> omega

theorem crc32_flipBit_ne (m : List Nat) (i j : Nat) (hi : i < m.length) (hj : j < 32) :
    crc32 (flipBit m i j) ≠ crc32 m := by
  intro h
  have hD : crcStepN (8 * (m.length - i)) (2 ^ j) = 0 := by
    unfold crc32 at h
    rw [foldl_crcUpdate_flipBit m i j _ hi] at h
    have h1 : m.foldl crcUpdate 0xFFFFFFFF ^^^ crcStepN (8 * (m.length - i)) (2 ^ j)
        = m.foldl crcUpdate 0xFFFFFFFF := by
      have h0 := congrArg (fun z => z ^^^ 0xFFFFFFFF) h
      simpa [Nat.xor_assoc] using h0
    exact xor_cancel_left h1
  have hpow_lt : (2 : Nat) ^ j < 2 ^ 32 := Nat.pow_lt_pow_right (by norm_num) hj
  have hpow_ne : (2 : Nat) ^ j ≠ 0 := by positivity
  exact crcStepN_ne_zero _ hpow_lt hpow_ne hD

theorem crcUpdate_lt {c b : Nat} (hc : c < 2 ^ 32) (hb : b < 2 ^ 32) :
    crcUpdate c b < 2 ^ 32 :=
  crcStepN_lt 8 (Nat.xor_lt_two_pow hc hb)

theorem foldl_crcUpdate_lt (l : List Nat) (c : Nat) (hc : c < 2 ^ 32)
    (hl : ∀ b ∈ l, b < 2 ^ 32) : l.foldl crcUpdate c < 2 ^ 32 := by
  induction l generalizing c with
  | nil => exact hc
  | cons b t ih =>
    simp only [List.foldl_cons]
    exact ih _ (crcUpdate_lt hc (hl b (by simp))) (fun x hx => hl x (by simp [hx]))

theorem crc32_lt (m : List Nat) (hm : ∀ b ∈ m, b < 2 ^ 32) : crc32 m < 2 ^ 32 := by
  unfold crc32
  exact Nat.xor_lt_two_pow (foldl_crcUpdate_lt m _ (by norm_num) hm) (by norm_num)

/-! ### Byte sources and sinks

The underlying `io.Reader` / `io.Writer` are external collaborators; they
are modelled as sequential in-memory byte streams that additionally count
how many `Read` / `Write` calls they have received (the spec's "mock
sink/source that counts calls").  A `Read` hands over as many of the
requested bytes as are available (like `bytes.Buffer`); a `Write` accepts
bytes up to the sink's remaining capacity, so short writes are
expressible. -/

structure ByteSource where
  data : List Nat
  readCalls : Nat
  deriving DecidableEq, Repr

structure ByteSink where
  cap : Nat
  written : List Nat
  writeCalls : Nat
  deriving DecidableEq, Repr

/-- One `Write` call on the sink: accepts `min bs.length cap` bytes and
reports that count. -/
def sinkWrite (s : ByteSink) (bs : List Nat) : Nat × ByteSink :=
  let n := min bs.length s.cap
  (n, ⟨s.cap - n, s.written ++ bs.take n, s.writeCalls + 1⟩)

/-- One `Read` call on the source into a buffer of length `n`: hands over
`min n available` bytes; reports `io.EOF` when the source is exhausted and
at least one byte was requested. -/
def readOnce (n : Nat) (src : ByteSource) : (List Nat × Nat × Option RecErr) × ByteSource :=
  if n = 0 then (([], 0, none), ⟨src.data, src.readCalls + 1⟩)
  else if src.data.isEmpty then (([], 0, some .eofMark), ⟨src.data, src.readCalls + 1⟩)
  else
    let k := min n src.data.length
    ((src.data.take k, k, none), ⟨src.data.drop k, src.readCalls + 1⟩)

/-- `readn`: loop `src.Read` until `dst` (length `n`) is full.  Net
effect on the sequential source: `n = 0` returns at once without a `Read`
call; an exhausted source yields `io.EOF` after one call; a source with
some but fewer than `n` bytes yields `io.ErrUnexpectedEOF` (one call that
drains it plus the one that reports EOF); otherwise the first `Read`
fills the buffer. -/
def readnM (n : Nat) (src : ByteSource) : Except RecErr (List Nat) × ByteSource :=
  if n = 0 then (.ok [], src)
  else if src.data.isEmpty then (.error .eofMark, ⟨src.data, src.readCalls + 1⟩)
  else if src.data.length < n then (.error .unexpectedEOFMark, ⟨[], src.readCalls + 2⟩)
  else (.ok (src.data.take n), ⟨src.data.drop n, src.readCalls + 1⟩)

/-! ### Snappy variant: flag, Reader, Writer -/

/-- `NoCompression = Flags(1 << 0)`. -/
def NoCompression : Nat := 1

/-- Snappy-variant `Reader`: sticky last error (`Err`) plus the
underlying byte source.  The reusable `uncompressBuf` only affects
allocation, not values, and is not modelled. -/
structure RReader where
  err : Option RecErr
  src : ByteSource
  deriving DecidableEq, Repr

/-- `Reader.readBody`: read `bodyLength + 4` bytes (body plus CRC32
trailer), verify the trailer checksum unconditionally, and return the
body.  Any failure is stored as the reader's sticky error. -/
def RReader.readBody (bodyLength : Nat) (st : RReader) :
    Except RecErr (List Nat) × RReader :=
  match readnM (bodyLength + 4) st.src with
  | (.error e, src') => (.error e, ⟨some e, src'⟩)
  | (.ok bytes, src') =>
    if crc32 (bytes.take bodyLength) ≠ getLE4 (bytes.drop bodyLength) then
      (.error .checksumE, ⟨some .checksumE, src'⟩)
    else
      (.ok (bytes.take bodyLength), ⟨st.err, src'⟩)

/-- `Reader.ReadRecord` (snappy variant), parametrised by the external
snappy decoder `dec` (`snappy.Decode`, which may fail).  Mirrors the
source: poisoned check, 12-byte header via `readn`, `decode`, then
`readBody`, then snappy decode unless the `NoCompression` flag is set.
The `decode` panic branch is unreachable (the header buffer always has
length 12) and is mapped to `panicAbort`. -/
def RReader.readRecord (dec : List Nat → Option (List Nat)) (st : RReader) :
    Except RecErr (List Nat) × RReader :=
  match st.err with
  | some e => (.error e, st)
  | none =>
    match readnM 12 st.src with
    | (.error e, src') => (.error e, ⟨some e, src'⟩)
    | (.ok headerBytes, src') =>
      match RecordHeader.decode headerBytes with
      | .panicked => (.error .panicAbort, ⟨some .panicAbort, src'⟩)
      | .failed e => (.error e, ⟨some e, src'⟩)
      | .ok header =>
        if header.flags &&& NoCompression ≠ 0 then
          RReader.readBody header.bodyLength ⟨none, src'⟩
        else
          match RReader.readBody header.bodyLength ⟨none, src'⟩ with
          | (.error e, st2) => (.error e, st2)
          | (.ok rawBuf, st2) =>
            match dec rawBuf with
            | none => (.error .readBytesE, ⟨some .readBytesE, st2.src⟩)
            | some buf => (.ok buf, st2)

/-- Snappy-variant `Writer`: sticky last error, default flags, sink. -/
structure RWriter where
  err : Option RecErr
  flags : Nat
  sink : ByteSink
  deriving DecidableEq, Repr

/-- `Writer.WriteRecord` (snappy variant), parametrised by the external
snappy encoder `enc` (`snappy.Encode`, total).  Combines the flags,
compresses unless `NoCompression` is set, writes the 12-byte header, the
body, and the 4-byte CRC32 trailer; any short write poisons the writer
with `ErrWriteBytes`. -/
def RWriter.writeRecord (enc : List Nat → List Nat) (st : RWriter)
    (data : List Nat) (flags : Nat) : Except RecErr Unit × RWriter :=
  match st.err with
  | some e => (.error e, st)
  | none =>
    let flags' := flags ||| st.flags
    let data' := if flags' &&& NoCompression = 0 then enc data else data
    let header : RecordHeader := ⟨data'.length % 2 ^ 32, flags' % 2 ^ 32⟩
    let headerBuf := header.encode
    let (size1, s1) := sinkWrite st.sink headerBuf
    if size1 ≠ 12 then (.error .writeBytesE, ⟨some .writeBytesE, st.flags, s1⟩)
    else
      let (size2, s2) := sinkWrite s1 data'
      if size2 ≠ data'.length then (.error .writeBytesE, ⟨some .writeBytesE, st.flags, s2⟩)
      else
        let checksumBuf := toLE4 (crc32 data')
        let (size3, s3) := sinkWrite s2 checksumBuf
        if size3 ≠ 4 then (.error .writeBytesE, ⟨some .writeBytesE, st.flags, s3⟩)
        else (.ok (), ⟨none, st.flags, s3⟩)

/-! ### Gzip variant: flags, Reader, Writer -/

/-- `GzipCompress = 1 << 0`. -/
def GzipCompress : Nat := 1

/-- `BodyChecksum = 1 << 1`. -/
def BodyChecksum : Nat := 2

/-- Gzip-variant `Reader`: options, sticky `LastError`, source.  The
secondary `BytesReaderError` field only mirrors the collaborator's raw
error and is not modelled. -/
structure GReader where
  lastError : Option RecErr
  options : Nat
  src : ByteSource
  deriving DecidableEq, Repr

/-- `Reader.ReadRecord` (gzip variant), parametrised by the external gzip
decoder `gzDec` (covering `gzip.NewReader` plus the drain loop; `none`
for a decompression failure).  Mirrors the source: poisoned check; a
single `Read` into the zero-initialised 16-byte header buffer whose size
result is ignored; `UnmarshalBinary`; a single `Read` of `bodyLength`
bytes whose size is checked; body checksum verified only when both the
reader's options and the record's flags carry `BodyChecksum`; gzip
decompression when the record's flags carry `GzipCompress`. -/
def GReader.readRecord (gzDec : List Nat → Option (List Nat)) (st : GReader) :
    Except RecErr (List Nat) × GReader :=
  match st.lastError with
  | some e => (.error e, st)
  | none =>
    let ((got, _, rerr), src1) := readOnce 16 st.src
    match rerr with
    | some e =>
      if e = .eofMark then (.error .eofMark, ⟨some .eofMark, st.options, src1⟩)
      else (.error .readBytesE, ⟨some .readBytesE, st.options, src1⟩)
    | none =>
      let headerBytes := got ++ List.replicate (16 - got.length) 0
      match RecordHeader16.unmarshalBinary headerBytes with
      | .error e => (.error e, ⟨some e, st.options, src1⟩)
      | .ok header =>
        let ((raw, size, rerr2), src2) := readOnce header.bodyLength src1
        if rerr2.isSome ∨ size ≠ header.bodyLength then
          (.error .readBytesE, ⟨some .readBytesE, st.options, src2⟩)
        else if st.options &&& BodyChecksum = BodyChecksum ∧
            header.flags &&& BodyChecksum = BodyChecksum ∧
            header.bodyChecksum ≠ crc32 raw then
          (.error .checksumE, ⟨some .checksumE, st.options, src2⟩)
        else if header.flags &&& GzipCompress = GzipCompress then
          match gzDec raw with
          | none => (.error .readBytesE, ⟨some .readBytesE, st.options, src2⟩)
          | some uncompressed => (.ok uncompressed, ⟨none, st.options, src2⟩)
        else (.ok raw, ⟨none, st.options, src2⟩)

/-- Gzip-variant `Writer`: options, sticky `LastError`, sink. -/
structure GWriter where
  lastError : Option RecErr
  options : Nat
  sink : ByteSink
  deriving DecidableEq, Repr

/-- `Writer.WriteRecord` (gzip variant), parametrised by the external gzip
encoder `gzEnc` (`gzip.NewWriter`/`Write`/`Flush` into a buffer, total).
Compresses when the writer's options carry `GzipCompress`, fills
`bodyChecksum` when they carry `BodyChecksum`, then writes the 16-byte
header and the body, returning `(bytesWritten, error)`. -/
def GWriter.writeRecord (gzEnc : List Nat → List Nat) (st : GWriter)
    (data : List Nat) : (Nat × Option RecErr) × GWriter :=
  match st.lastError with
  | some e => ((0, some e), st)
  | none =>
    let compressedData := if st.options &&& GzipCompress = GzipCompress then gzEnc data else data
    let header : RecordHeader16 :=
      ⟨compressedData.length % 2 ^ 32, st.options,
        if st.options &&& BodyChecksum = BodyChecksum then crc32 compressedData else 0⟩
    let headerBin := header.marshalBinary
    let (size1, s1) := sinkWrite st.sink headerBin
    if size1 ≠ 16 then ((size1, some .writeBytesE), ⟨some .writeBytesE, st.options, s1⟩)
    else
      let (size2, s2) := sinkWrite s1 compressedData
      if size2 ≠ compressedData.length then
        ((16 + size2, some .writeBytesE), ⟨some .writeBytesE, st.options, s2⟩)
      else ((16 + size2, none), ⟨none, st.options, s2⟩)

/-! ### Little-endian and header-codec lemmas -/

theorem toLE4_length (x : Nat) : (toLE4 x).length = 4 := by simp [toLE4]

theorem getLE4_toLE4 {x : Nat} (hx : x < 2 ^ 32) : getLE4 (toLE4 x) = x := by
  rw [show (2:Nat)^32 = 4294967296 from by norm_num] at hx
  simp [toLE4, getLE4]
  omega

theorem toLE4_mem_lt {x b : Nat} (hb : b ∈ toLE4 x) : b < 2 ^ 32 := by
  rw [show (2:Nat)^32 = 4294967296 from by norm_num]
  simp [toLE4] at hb
  rcases hb with h | h | h | h <;> omega

theorem crc32_two_appends_lt (a b : Nat) : crc32 (toLE4 a ++ toLE4 b) < 2 ^ 32 := by
  apply crc32_lt
  intro x hx
  rcases List.mem_append.mp hx with h | h <;> exact toLE4_mem_lt h

theorem crc32_three_appends_lt (a b c : Nat) :
    crc32 (toLE4 a ++ toLE4 b ++ toLE4 c) < 2 ^ 32 := by
  apply crc32_lt
  intro x hx
  rcases List.mem_append.mp hx with h | h
  · rcases List.mem_append.mp h with h2 | h2 <;> exact toLE4_mem_lt h2
  · exact toLE4_mem_lt h

theorem decode_encode (h : RecordHeader) (h1 : h.bodyLength < 2 ^ 32)
    (h2 : h.flags < 2 ^ 32) : RecordHeader.decode h.encode = .ok h := by
  obtain ⟨len, flg⟩ := h
  simp only [RecordHeader.encode, RecordHeader.decode] at *
  have h8 : (toLE4 len ++ toLE4 flg).length = 8 := by simp [toLE4]
  rw [List.take_left' h8, List.drop_left' h8]
  rw [getLE4_toLE4 (crc32_two_appends_lt len flg)]
  rw [if_neg (by norm_num [List.length_append, toLE4_length]), if_neg (by simp)]
  rw [List.append_assoc]
  rw [List.take_left' (toLE4_length len), List.drop_left' (toLE4_length len)]
  rw [List.take_left' (toLE4_length flg)]
  rw [getLE4_toLE4 h1, getLE4_toLE4 h2]

theorem unmarshal_marshal (h : RecordHeader16) (h1 : h.bodyLength < 2 ^ 32)
    (h2 : h.flags < 2 ^ 32) (h3 : h.bodyChecksum < 2 ^ 32) :
    RecordHeader16.unmarshalBinary h.marshalBinary = .ok h := by
  obtain ⟨len, flg, bcs⟩ := h
  simp only [RecordHeader16.marshalBinary, RecordHeader16.unmarshalBinary] at *
  have h12 : (toLE4 len ++ toLE4 flg ++ toLE4 bcs).length = 12 := by simp [toLE4]
  rw [List.take_left' h12, List.drop_left' h12]
  rw [getLE4_toLE4 (crc32_three_appends_lt len flg bcs)]
  rw [if_neg (by norm_num [List.length_append, toLE4_length]), if_neg (by simp)]
  simp only [List.take_append_eq_append_take, List.drop_append_eq_append_drop,
    toLE4_length, List.length_append, List.length_take, List.length_drop]
  norm_num
  rw [List.take_of_length_le (by simp [toLE4]), List.take_of_length_le (by simp [toLE4]),
    List.take_of_length_le (by simp [toLE4])]
  simp [List.drop_of_length_le, List.take_of_length_le, toLE4_length]
  exact ⟨getLE4_toLE4 h1, getLE4_toLE4 h2, getLE4_toLE4 h3⟩

/-- Does a decode result return an error value (as opposed to succeeding or
panicking)? -/
def DecodeResult.isFailed : DecodeResult → Bool
  | .failed _ => true
  | _ => false

/-! ### Claim C9 -/

/-- C9: decoding the bytes produced by encoding a header succeeds and
returns exactly the original field values, in both the 12-byte variant
(`decode ∘ encode`) and the 16-byte variant
(`UnmarshalBinary ∘ MarshalBinary`), for all in-range (`uint32`) field
values. -/
theorem claim_c9_header_roundtrip (h12 : RecordHeader) (h16 : RecordHeader16)
    (hb : h12.bodyLength < 2 ^ 32) (hf : h12.flags < 2 ^ 32)
    (gb : h16.bodyLength < 2 ^ 32) (gf : h16.flags < 2 ^ 32)
    (gc : h16.bodyChecksum < 2 ^ 32) :
    RecordHeader.decode h12.encode = .ok h12 ∧
    RecordHeader16.unmarshalBinary h16.marshalBinary = .ok h16 :=
  ⟨decode_encode h12 hb hf, unmarshal_marshal h16 gb gf gc⟩

/-- Witness for C9 at the concrete headers `⟨5, 1⟩` and `⟨5, 2, 123⟩`. -/
theorem claim_c9_header_roundtrip_witness :
    RecordHeader.decode (RecordHeader.encode ⟨5, 1⟩) = .ok ⟨5, 1⟩ ∧
    RecordHeader16.unmarshalBinary (RecordHeader16.marshalBinary ⟨5, 2, 123⟩) = .ok ⟨5, 2, 123⟩ :=
  claim_c9_header_roundtrip ⟨5, 1⟩ ⟨5, 2, 123⟩ (by norm_num) (by norm_num)
    (by norm_num) (by norm_num) (by norm_num)

/-! ### Claim C6 -/

/-- C6 counterexample: on an input shorter than the fixed header size, the
12-byte variant's `decode` does not return an error value — it panics
(aborts the program) on the empty input. -/
theorem claim_c6_counterexample :
    RecordHeader.decode [] = .panicked ∧
    ((RecordHeader.decode []).isFailed) = false := by
  constructor <;> rfl

/-- C6 amended: the 16-byte variant's `UnmarshalBinary` returns the
`ErrReadBytes` error value on every input shorter than 16 bytes, whereas
the 12-byte variant's `decode` panics (aborts) on every buffer whose
length is not exactly 12 rather than returning an error value. -/
theorem claim_c6_amended (buf12 buf16 : List Nat)
    (hb12 : buf12.length ≠ 12) (hb16 : buf16.length < 16) :
    RecordHeader.decode buf12 = .panicked ∧
    RecordHeader16.unmarshalBinary buf16 = .error .readBytesE := by
  constructor
  · simp [RecordHeader.decode, hb12]
  · simp [RecordHeader16.unmarshalBinary, hb16]

/-- Witness for the amended C6 at the empty buffer. -/
theorem claim_c6_amended_witness :
    RecordHeader.decode ([] : List Nat) = .panicked ∧
    RecordHeader16.unmarshalBinary ([] : List Nat) = .error .readBytesE :=
  claim_c6_amended [] [] (by decide) (by decide)

/-! ### Claim C4 -/

/-- C4: flipping any single bit in the twelve checksummed header bytes of
a correctly encoded 16-byte header makes `UnmarshalBinary` return the
`ChecksumMismatch` error (`ErrChecksum`).  Because the error is returned
before the field assignments in the source, no header field is assigned:
in this pure model the `.error` result carries no header values at all. -/
theorem claim_c4_header_bitflip (h : RecordHeader16) (i j : Nat)
    (hi : i < 12) (hj : j < 8) :
    RecordHeader16.unmarshalBinary (flipBit h.marshalBinary i j) = .error .checksumE := by
  obtain ⟨len, flg, bcs⟩ := h
  simp only [RecordHeader16.marshalBinary, RecordHeader16.unmarshalBinary]
  have h12 : (toLE4 len ++ toLE4 flg ++ toLE4 bcs).length = 12 := by simp [toLE4]
  have hi' : i < (toLE4 len ++ toLE4 flg ++ toLE4 bcs).length := by omega
  rw [show flipBit
      (toLE4 len ++ toLE4 flg ++ toLE4 bcs ++
        toLE4 (crc32 (toLE4 len ++ toLE4 flg ++ toLE4 bcs))) i j
      = flipBit (toLE4 len ++ toLE4 flg ++ toLE4 bcs) i j ++
        toLE4 (crc32 (toLE4 len ++ toLE4 flg ++ toLE4 bcs)) from by
    unfold flipBit
    rw [List.getD_append _ _ _ _ hi', List.set_append_left _ _ hi']]
  have hlen' : (flipBit (toLE4 len ++ toLE4 flg ++ toLE4 bcs) i j).length = 12 := by
    norm_num [flipBit, toLE4_length]
  rw [List.take_left' hlen', List.drop_left' hlen']
  rw [getLE4_toLE4 (crc32_three_appends_lt len flg bcs)]
  rw [if_neg (by simp only [List.length_append, hlen', toLE4_length]; omega)]
  rw [if_pos]
  exact fun hEq => (crc32_flipBit_ne _ i j hi' (by omega)) hEq.symm

/-- Witness for C4: header `⟨5, 2, 123⟩`, bit 4 of byte 3 flipped. -/
theorem claim_c4_header_bitflip_witness :
    RecordHeader16.unmarshalBinary
      (flipBit (RecordHeader16.marshalBinary ⟨5, 2, 123⟩) 3 4) = .error .checksumE :=
  claim_c4_header_bitflip ⟨5, 2, 123⟩ 3 4 (by decide) (by decide)

/-! ### Replay and poison lemmas -/

theorem rreader_replay (dec : List Nat → Option (List Nat)) (st : RReader) (e : RecErr)
    (h : st.err = some e) : RReader.readRecord dec st = (.error e, st) := by
  unfold RReader.readRecord
  rw [h]

theorem rwriter_replay (enc : List Nat → List Nat) (st : RWriter) (data : List Nat)
    (flags : Nat) (e : RecErr) (h : st.err = some e) :
    RWriter.writeRecord enc st data flags = (.error e, st) := by
  unfold RWriter.writeRecord
  rw [h]

theorem greader_replay (gz : List Nat → Option (List Nat)) (st : GReader) (e : RecErr)
    (h : st.lastError = some e) : GReader.readRecord gz st = (.error e, st) := by
  unfold GReader.readRecord
  rw [h]

theorem gwriter_replay (gz : List Nat → List Nat) (st : GWriter) (data : List Nat)
    (e : RecErr) (h : st.lastError = some e) :
    GWriter.writeRecord gz st data = ((0, some e), st) := by
  unfold GWriter.writeRecord
  rw [h]

/-- A failing snappy readBody stores the returned error. -/
theorem rreader_readBody_error_sets {L : Nat} {st st' : RReader} {e : RecErr}
    (h : RReader.readBody L st = (.error e, st')) : st'.err = some e := by
  unfold RReader.readBody at h
  split at h
  · simp only [Prod.mk.injEq, Except.error.injEq] at h
    rcases h with ⟨rfl, rfl⟩
    rfl
  · split at h
    · simp only [Prod.mk.injEq, Except.error.injEq] at h
      rcases h with ⟨rfl, rfl⟩
      rfl
    · simp at h

/-- A failing snappy ReadRecord stores the error it returns. -/
theorem rreader_error_sets {dec : List Nat → Option (List Nat)} {st st' : RReader}
    {e : RecErr} (h : RReader.readRecord dec st = (.error e, st')) : st'.err = some e := by
  unfold RReader.readRecord at h
  split at h
  · next e0 heq =>
    simp only [Prod.mk.injEq, Except.error.injEq] at h
    rcases h with ⟨rfl, rfl⟩
    exact heq
  · split at h
    · simp only [Prod.mk.injEq, Except.error.injEq] at h
      rcases h with ⟨rfl, rfl⟩
      rfl
    · split at h
      · simp only [Prod.mk.injEq, Except.error.injEq] at h
        rcases h with ⟨rfl, rfl⟩
        rfl
      · simp only [Prod.mk.injEq, Except.error.injEq] at h
        rcases h with ⟨rfl, rfl⟩
        rfl
      · split at h
        · exact rreader_readBody_error_sets h
        · split at h
          · next h2 =>
            simp only [Prod.mk.injEq, Except.error.injEq] at h
            rcases h with ⟨rfl, rfl⟩
            exact rreader_readBody_error_sets h2
          · split at h
            · simp only [Prod.mk.injEq, Except.error.injEq] at h
              rcases h with ⟨rfl, rfl⟩
              rfl
            · simp at h

/-- A failing snappy WriteRecord stores the error it returns. -/
theorem rwriter_error_sets {enc : List Nat → List Nat} {st st' : RWriter}
    {data : List Nat} {flags : Nat} {e : RecErr}
    (h : RWriter.writeRecord enc st data flags = (.error e, st')) : st'.err = some e := by
  unfold RWriter.writeRecord at h
  split at h
  · next e0 heq =>
    simp only [Prod.mk.injEq, Except.error.injEq] at h
    rcases h with ⟨rfl, rfl⟩
    exact heq
  · simp only [sinkWrite] at h
    repeat' split at h
    all_goals try (simp only [Prod.mk.injEq, Except.error.injEq] at h; rcases h with ⟨rfl, rfl⟩)
    all_goals first | rfl | simp at h

/-- A failing gzip ReadRecord stores the error it returns. -/
theorem greader_error_sets {gz : List Nat → Option (List Nat)} {st st' : GReader}
    {e : RecErr} (h : GReader.readRecord gz st = (.error e, st')) :
    st'.lastError = some e := by
  unfold GReader.readRecord at h
  split at h
  · next e0 heq =>
    simp only [Prod.mk.injEq, Except.error.injEq] at h
    rcases h with ⟨rfl, rfl⟩
    exact heq
  · simp only [readOnce] at h
    repeat' split at h
    all_goals try (simp only [Prod.mk.injEq, Except.error.injEq] at h; rcases h with ⟨rfl, rfl⟩)
    all_goals first | rfl | simp at h

/-- A failing gzip WriteRecord stores the error it returns. -/
theorem gwriter_error_sets {gz : List Nat → List Nat} {st st' : GWriter}
    {data : List Nat} {n : Nat} {e : RecErr}
    (h : GWriter.writeRecord gz st data = ((n, some e), st')) :
    st'.lastError = some e := by
  unfold GWriter.writeRecord at h
  split at h
  · next e0 heq =>
    simp only [Prod.mk.injEq, Option.some.injEq] at h
    rcases h with ⟨⟨hn, rfl⟩, rfl⟩
    exact heq
  · simp only [sinkWrite] at h
    repeat' split at h
    all_goals try (simp only [Prod.mk.injEq, Option.some.injEq] at h; rcases h with ⟨⟨hn, rfl⟩, rfl⟩)
    all_goals first | rfl | simp at h


/-! ### Claim C2 -/

/-- C2: after any call on a Writer/Reader (either variant) has failed with
an error `e`, every subsequent call on that same instance returns the
identical error `e` and performs no operation on the underlying stream:
the returned state is exactly the input state, so the stream contents,
position and call counters are all unchanged. -/
theorem claim_c2_poison_sticky
    (rst : RReader) (wst : RWriter) (gst : GReader) (hst : GWriter)
    {dec gz : List Nat → Option (List Nat)} {enc gzw : List Nat → List Nat}
    (d1 g1 : List Nat) (f1 n : Nat)
    {rst' : RReader} {wst' : RWriter} {gst' : GReader} {hst' : GWriter}
    {e1 e2 e3 e4 : RecErr}
    (d2 g2 : List Nat) (f2 : Nat)
    (h1 : RReader.readRecord dec rst = (.error e1, rst'))
    (h2 : RWriter.writeRecord enc wst d1 f1 = (.error e2, wst'))
    (h3 : GReader.readRecord gz gst = (.error e3, gst'))
    (h4 : GWriter.writeRecord gzw hst g1 = ((n, some e4), hst')) :
    RReader.readRecord dec rst' = (.error e1, rst') ∧
    RWriter.writeRecord enc wst' d2 f2 = (.error e2, wst') ∧
    GReader.readRecord gz gst' = (.error e3, gst') ∧
    GWriter.writeRecord gzw hst' g2 = ((0, some e4), hst') :=
  ⟨rreader_replay _ _ _ (rreader_error_sets h1),
   rwriter_replay _ _ _ _ _ (rwriter_error_sets h2),
   greader_replay _ _ _ (greader_error_sets h3),
   gwriter_replay _ _ _ _ (gwriter_error_sets h4)⟩

/-- Witness for C2: an EOF-failed reader and a short-write-failed writer of
each variant, replaying their stored errors with unchanged streams. -/
theorem claim_c2_poison_sticky_witness :
    (RReader.readRecord some ⟨none, ⟨[], 0⟩⟩ = (.error .eofMark, ⟨some .eofMark, ⟨[], 1⟩⟩)) ∧
    (RWriter.writeRecord (fun l => l) ⟨none, 1, ⟨0, [], 0⟩⟩ [] 0 =
      (.error .writeBytesE, ⟨some .writeBytesE, 1, ⟨0, [], 1⟩⟩)) ∧
    (GReader.readRecord some ⟨none, 0, ⟨[], 0⟩⟩ = (.error .eofMark, ⟨some .eofMark, 0, ⟨[], 1⟩⟩)) ∧
    (GWriter.writeRecord (fun l => l) ⟨none, 0, ⟨0, [], 0⟩⟩ [] =
      ((0, some .writeBytesE), ⟨some .writeBytesE, 0, ⟨0, [], 1⟩⟩)) ∧
    (RReader.readRecord some ⟨some .eofMark, ⟨[], 1⟩⟩ =
        (.error .eofMark, ⟨some .eofMark, ⟨[], 1⟩⟩) ∧
      RWriter.writeRecord (fun l => l) ⟨some .writeBytesE, 1, ⟨0, [], 1⟩⟩ [5] 7 =
        (.error .writeBytesE, ⟨some .writeBytesE, 1, ⟨0, [], 1⟩⟩) ∧
      GReader.readRecord some ⟨some .eofMark, 0, ⟨[], 1⟩⟩ =
        (.error .eofMark, ⟨some .eofMark, 0, ⟨[], 1⟩⟩) ∧
      GWriter.writeRecord (fun l => l) ⟨some .writeBytesE, 0, ⟨0, [], 1⟩⟩ [9] =
        ((0, some .writeBytesE), ⟨some .writeBytesE, 0, ⟨0, [], 1⟩⟩)) :=
  ⟨rfl, rfl, rfl, rfl,
   claim_c2_poison_sticky ⟨none, ⟨[], 0⟩⟩ ⟨none, 1, ⟨0, [], 0⟩⟩ ⟨none, 0, ⟨[], 0⟩⟩
     ⟨none, 0, ⟨0, [], 0⟩⟩ [] [] 0 0 [5] [9] 7 rfl rfl rfl rfl⟩

/-! ### Claim C3 -/

/-- C3 counterexample: reading a cleanly exhausted stream returns the
`io.EOF` sentinel, but — contrary to the claim — the reader IS poisoned:
the sentinel is stored as the sticky error (`Err ≠ none`), and a later
call replays the stored error without attempting to read the stream (the
source's read-call counter stays at 1). -/
theorem claim_c3_counterexample :
    RReader.readRecord some ⟨none, ⟨[], 0⟩⟩ = (.error .eofMark, ⟨some .eofMark, ⟨[], 1⟩⟩) ∧
    (⟨some .eofMark, ⟨[], 1⟩⟩ : RReader).err ≠ none ∧
    RReader.readRecord some ⟨some .eofMark, ⟨[], 1⟩⟩ =
      (.error .eofMark, ⟨some .eofMark, ⟨[], 1⟩⟩) :=
  ⟨rfl, by simp, rfl⟩

/-- C3 amended: in both variants, reading from an exhausted stream (zero
bytes available) returns the `io.EOF` sentinel and no other error, but the
reader stores `io.EOF` as its sticky last error, so a later call returns
the same sentinel without reading the stream again. -/
theorem claim_c3_amended (dec gz : List Nat → Option (List Nat)) (j k ropts : Nat) :
    RReader.readRecord dec ⟨none, ⟨[], j⟩⟩ = (.error .eofMark, ⟨some .eofMark, ⟨[], j + 1⟩⟩) ∧
    RReader.readRecord dec ⟨some .eofMark, ⟨[], j + 1⟩⟩ =
      (.error .eofMark, ⟨some .eofMark, ⟨[], j + 1⟩⟩) ∧
    GReader.readRecord gz ⟨none, ropts, ⟨[], k⟩⟩ =
      (.error .eofMark, ⟨some .eofMark, ropts, ⟨[], k + 1⟩⟩) ∧
    GReader.readRecord gz ⟨some .eofMark, ropts, ⟨[], k + 1⟩⟩ =
      (.error .eofMark, ⟨some .eofMark, ropts, ⟨[], k + 1⟩⟩) :=
  ⟨rfl, rreader_replay _ _ _ rfl, rfl, greader_replay _ _ _ rfl⟩

/-! ### Frame shapes and success-path lemmas -/

/-- The body the snappy-variant writer frames: snappy-compressed unless
`NoCompression` is set in the effective flags. -/
def snappyBody (enc : List Nat → List Nat) (data : List Nat) (effFlags : Nat) : List Nat :=
  if effFlags &&& NoCompression = 0 then enc data else data

/-- The complete frame the snappy-variant writer emits: 12-byte header,
body, 4-byte CRC32 trailer. -/
def snappyFrame (body : List Nat) (effFlags : Nat) : List Nat :=
  RecordHeader.encode ⟨body.length % 2 ^ 32, effFlags % 2 ^ 32⟩ ++ body ++ toLE4 (crc32 body)

/-- The body the gzip-variant writer frames. -/
def gzipBody (gzEnc : List Nat → List Nat) (data : List Nat) (options : Nat) : List Nat :=
  if options &&& GzipCompress = GzipCompress then gzEnc data else data

/-- The complete frame the gzip-variant writer emits: 16-byte header then
body. -/
def gzipFrame (body : List Nat) (options : Nat) : List Nat :=
  RecordHeader16.marshalBinary
    ⟨body.length % 2 ^ 32, options,
      if options &&& BodyChecksum = BodyChecksum then crc32 body else 0⟩ ++ body

theorem encode_length (h : RecordHeader) : h.encode.length = 12 := by
  simp [RecordHeader.encode, toLE4]

theorem marshal_length (h : RecordHeader16) : h.marshalBinary.length = 16 := by
  simp [RecordHeader16.marshalBinary, toLE4]

theorem snappyFrame_length (body : List Nat) (f : Nat) :
    (snappyFrame body f).length = 12 + body.length + 4 := by
  simp [snappyFrame, encode_length, toLE4]
  omega

theorem gzipFrame_length (body : List Nat) (f : Nat) :
    (gzipFrame body f).length = 16 + body.length := by
  simp [gzipFrame, marshal_length]

/-- A write within capacity is accepted in full. -/
theorem sinkWrite_all (s : ByteSink) (bs : List Nat) (h : bs.length ≤ s.cap) :
    sinkWrite s bs = (bs.length, ⟨s.cap - bs.length, s.written ++ bs, s.writeCalls + 1⟩) := by
  simp only [sinkWrite]
  rw [Nat.min_eq_left h, List.take_length]

/-- Successful snappy-variant WriteRecord: emits exactly one frame. -/
theorem rwriter_success (enc : List Nat → List Nat) (data : List Nat)
    (flags wf cap : Nat) (w : List Nat) (k : Nat)
    (hcap : 16 + (snappyBody enc data (flags ||| wf)).length ≤ cap) :
    RWriter.writeRecord enc ⟨none, wf, ⟨cap, w, k⟩⟩ data flags =
      (.ok (), ⟨none, wf,
        ⟨cap - (16 + (snappyBody enc data (flags ||| wf)).length),
         w ++ snappyFrame (snappyBody enc data (flags ||| wf)) (flags ||| wf),
         k + 3⟩⟩) := by
  have hB : (if (flags ||| wf) &&& NoCompression = 0 then enc data else data)
      = snappyBody enc data (flags ||| wf) := rfl
  unfold RWriter.writeRecord
  simp only [hB]
  rw [sinkWrite_all _ _ (by rw [encode_length]; show (12:Nat) ≤ cap; omega)]
  simp only [encode_length]
  rw [if_neg (by omega)]
  rw [sinkWrite_all _ _ (by show (snappyBody enc data (flags ||| wf)).length ≤ cap - 12; omega)]
  rw [if_neg (by omega)]
  rw [sinkWrite_all _ _ (by rw [toLE4_length]; show (4:Nat) ≤ cap - 12 - (snappyBody enc data (flags ||| wf)).length; omega)]
  rw [toLE4_length]
  rw [if_neg (by omega)]
  simp only [snappyFrame, Prod.mk.injEq, RWriter.mk.injEq, ByteSink.mk.injEq,
    List.append_assoc, and_true, true_and]
  omega


/-- Successful gzip-variant WriteRecord: emits exactly one frame and
returns its size. -/
theorem gwriter_success (gzEnc : List Nat → List Nat) (data : List Nat)
    (options cap : Nat) (w : List Nat) (k : Nat)
    (hcap : 16 + (gzipBody gzEnc data options).length ≤ cap) :
    GWriter.writeRecord gzEnc ⟨none, options, ⟨cap, w, k⟩⟩ data =
      ((16 + (gzipBody gzEnc data options).length, none),
        ⟨none, options,
          ⟨cap - (16 + (gzipBody gzEnc data options).length),
           w ++ gzipFrame (gzipBody gzEnc data options) options, k + 2⟩⟩) := by
  have hB : (if options &&& GzipCompress = GzipCompress then gzEnc data else data)
      = gzipBody gzEnc data options := rfl
  unfold GWriter.writeRecord
  simp only [hB]
  rw [sinkWrite_all _ _ (by rw [marshal_length]; show (16:Nat) ≤ cap; omega)]
  simp only [marshal_length]
  rw [if_neg (by omega)]
  rw [sinkWrite_all _ _ (by show (gzipBody gzEnc data options).length ≤ cap - 16; omega)]
  rw [if_neg (by omega)]
  simp only [gzipFrame, Prod.mk.injEq, GWriter.mk.injEq, ByteSink.mk.injEq,
    List.append_assoc, and_true, true_and]
  omega

/-- A full `readn` over a source holding at least the requested bytes. -/
theorem readnM_exact {n : Nat} (hn : 0 < n) (s rest : List Nat) (hs : s.length = n) (k : Nat) :
    readnM n ⟨s ++ rest, k⟩ = (.ok s, ⟨rest, k + 1⟩) := by
  unfold readnM
  have hne : (s ++ rest).isEmpty = false := by
    cases s with
    | nil => simp at hs; omega
    | cons a t => rfl
  rw [if_neg (by omega)]
  rw [hne]
  simp only [Bool.false_eq_true, if_false]
  rw [if_neg (by rw [List.length_append, hs]; omega)]
  rw [List.take_left' hs, List.drop_left' hs]

/-- A single `Read` over a source holding at least the requested bytes. -/
theorem readOnce_exact (n : Nat) (s rest : List Nat) (hs : s.length = n) (k : Nat) :
    readOnce n ⟨s ++ rest, k⟩ = ((s, n, none), ⟨rest, k + 1⟩) := by
  unfold readOnce
  by_cases hn : n = 0
  · subst hn
    have hnil : s = [] := List.eq_nil_of_length_eq_zero hs
    subst hnil
    simp
  · have hne : (s ++ rest).isEmpty = false := by
      cases s with
      | nil => simp at hs; omega
      | cons a t => rfl
    rw [if_neg hn, hne]
    simp only [Bool.false_eq_true, if_false]
    have hmin : min n (s ++ rest).length = n := by
      rw [List.length_append, hs]; omega
    simp only [hmin]
    rw [List.take_left' hs, List.drop_left' hs]

/-- `readBody` on a well-formed body-plus-trailer prefix succeeds and
returns the body, consuming body and trailer. -/
theorem rreader_readBody_ok (L : Nat) (body tr rest : List Nat) (e0 : Option RecErr) (k : Nat)
    (hb : body.length = L) (ht : tr.length = 4) (htr : getLE4 tr = crc32 body) :
    RReader.readBody L ⟨e0, ⟨body ++ tr ++ rest, k⟩⟩ = (.ok body, ⟨e0, ⟨rest, k + 1⟩⟩) := by
  unfold RReader.readBody
  have hbt : (body ++ tr).length = L + 4 := by simp [hb, ht]
  rw [readnM_exact (by omega) (body ++ tr) rest hbt k]
  simp only [List.take_left' hb, List.drop_left' hb]
  rw [if_neg (by simp [htr])]

/-- `readBody` on a corrupted body (trailer checksum mismatch) fails with
`ErrChecksum` regardless of any flags, and poisons the reader. -/
theorem rreader_readBody_badsum (L : Nat) (body tr rest : List Nat) (e0 : Option RecErr) (k : Nat)
    (hb : body.length = L) (ht : tr.length = 4) (htr : getLE4 tr ≠ crc32 body) :
    RReader.readBody L ⟨e0, ⟨body ++ tr ++ rest, k⟩⟩ =
      (.error .checksumE, ⟨some .checksumE, ⟨rest, k + 1⟩⟩) := by
  unfold RReader.readBody
  have hbt : (body ++ tr).length = L + 4 := by simp [hb, ht]
  rw [readnM_exact (by omega) (body ++ tr) rest hbt k]
  simp only [List.take_left' hb, List.drop_left' hb]
  rw [if_pos (fun hEq => htr hEq.symm)]


/-- Snappy-variant ReadRecord on one intact frame followed by `rest`:
decodes the header, reads body plus trailer, verifies the trailer
checksum, and decompresses unless `NoCompression` is set in the frame
flags. -/
theorem rreader_readRecord_frame (dec : List Nat → Option (List Nat))
    (body : List Nat) (eff : Nat) (rest : List Nat) (k : Nat)
    (hlen : body.length < 2 ^ 32) (heff : eff < 2 ^ 32)
    (hbytes : ∀ b ∈ body, b < 2 ^ 32) :
    RReader.readRecord dec ⟨none, ⟨snappyFrame body eff ++ rest, k⟩⟩ =
      if eff &&& NoCompression ≠ 0 then (.ok body, ⟨none, ⟨rest, k + 2⟩⟩)
      else
        match dec body with
        | none => (.error .readBytesE, ⟨some .readBytesE, ⟨rest, k + 2⟩⟩)
        | some out => (.ok out, ⟨none, ⟨rest, k + 2⟩⟩) := by
  unfold RReader.readRecord
  have hfr : snappyFrame body eff ++ rest =
      RecordHeader.encode ⟨body.length % 2 ^ 32, eff % 2 ^ 32⟩ ++
        (body ++ toLE4 (crc32 body) ++ rest) := by
    simp [snappyFrame, List.append_assoc]
  rw [hfr]
  rw [readnM_exact (by omega) _ _ (encode_length _) k]
  simp only []
  rw [decode_encode _ (by show body.length % 2 ^ 32 < 2 ^ 32; omega) (by show eff % 2 ^ 32 < 2 ^ 32; omega)]
  simp only []
  simp only [Nat.mod_eq_of_lt hlen, Nat.mod_eq_of_lt heff]
  have hok := rreader_readBody_ok body.length body (toLE4 (crc32 body)) rest none (k + 1)
    rfl (toLE4_length _) (getLE4_toLE4 (crc32_lt body hbytes))
  split
  · exact hok
  · rw [hok]
    try rfl

/-- Gzip-variant ReadRecord on one intact frame followed by `rest`:
decodes the header, reads the body, passes the checksum comparison (it is
either skipped or compares equal values), and gunzips when the frame
flags carry `GzipCompress`. -/
theorem greader_readRecord_frame (gz : List Nat → Option (List Nat))
    (body : List Nat) (wopts ropts : Nat) (rest : List Nat) (k : Nat)
    (hlen : body.length < 2 ^ 32) (hopts : wopts < 2 ^ 32)
    (hbytes : ∀ b ∈ body, b < 2 ^ 32) :
    GReader.readRecord gz ⟨none, ropts, ⟨gzipFrame body wopts ++ rest, k⟩⟩ =
      if wopts &&& GzipCompress = GzipCompress then
        match gz body with
        | none => (.error .readBytesE, ⟨some .readBytesE, ropts, ⟨rest, k + 2⟩⟩)
        | some u => (.ok u, ⟨none, ropts, ⟨rest, k + 2⟩⟩)
      else (.ok body, ⟨none, ropts, ⟨rest, k + 2⟩⟩) := by
  unfold GReader.readRecord
  have hcks : (if wopts &&& BodyChecksum = BodyChecksum then crc32 body else 0) < 2 ^ 32 := by
    split
    · exact crc32_lt body hbytes
    · positivity
  have hfr : gzipFrame body wopts ++ rest =
      RecordHeader16.marshalBinary
        ⟨body.length % 2 ^ 32, wopts,
          if wopts &&& BodyChecksum = BodyChecksum then crc32 body else 0⟩ ++
        (body ++ rest) := by
    simp [gzipFrame, List.append_assoc]
  rw [hfr]
  rw [readOnce_exact 16 _ _ (marshal_length _) k]
  simp only []
  rw [show (16 - (RecordHeader16.marshalBinary
      ⟨body.length % 2 ^ 32, wopts,
        if wopts &&& BodyChecksum = BodyChecksum then crc32 body else 0⟩).length) = 0 from by
    rw [marshal_length]]
  simp only [List.replicate, List.append_nil]
  rw [unmarshal_marshal _ (by show body.length % 2 ^ 32 < 2 ^ 32; omega) hopts hcks]
  simp only []
  rw [readOnce_exact (body.length % 2 ^ 32) body rest (Nat.mod_eq_of_lt hlen).symm (k + 1)]
  simp only [Option.isSome_none, Bool.false_eq_true, false_or]
  rw [if_neg (by simp)]
  rw [if_neg (by
    rintro ⟨hr, hw, hne⟩
    rw [if_pos hw] at hne
    exact hne rfl)]
  try rfl


/-- C1 roundtrip, snappy variant. -/
theorem roundtrip_snappy (enc : List Nat → List Nat) (dec : List Nat → Option (List Nat))
    (data : List Nat) (flags wf cap k : Nat)
    (hdec : dec (enc data) = some data)
    (hlen : (snappyBody enc data (flags ||| wf)).length < 2 ^ 32)
    (heff : flags ||| wf < 2 ^ 32)
    (hbytes : ∀ b ∈ snappyBody enc data (flags ||| wf), b < 2 ^ 32)
    (hcap : 16 + (snappyBody enc data (flags ||| wf)).length ≤ cap) :
    (RWriter.writeRecord enc ⟨none, wf, ⟨cap, [], 0⟩⟩ data flags).1 = .ok () ∧
    RReader.readRecord dec
      ⟨none, ⟨(RWriter.writeRecord enc ⟨none, wf, ⟨cap, [], 0⟩⟩ data flags).2.sink.written, k⟩⟩ =
      (.ok data, ⟨none, ⟨[], k + 2⟩⟩) := by
  have hw := rwriter_success enc data flags wf cap [] 0 hcap
  refine ⟨by rw [hw], ?_⟩
  rw [hw]
  simp only [List.nil_append]
  have hrd := rreader_readRecord_frame dec (snappyBody enc data (flags ||| wf))
    (flags ||| wf) [] k hlen heff hbytes
  rw [List.append_nil] at hrd
  rw [hrd]
  by_cases hc : (flags ||| wf) &&& NoCompression = 0
  · rw [if_neg (by simp [hc])]
    have hbody : snappyBody enc data (flags ||| wf) = enc data := by
      simp [snappyBody, hc]
    rw [hbody, hdec]
  · rw [if_pos hc]
    have hbody : snappyBody enc data (flags ||| wf) = data := by
      simp [snappyBody, hc]
    rw [hbody]

/-- C1 roundtrip, gzip variant. -/
theorem roundtrip_gzip (gzEnc : List Nat → List Nat) (gzDec : List Nat → Option (List Nat))
    (gdata : List Nat) (wopts ropts gcap j : Nat)
    (hgz : gzDec (gzEnc gdata) = some gdata)
    (hglen : (gzipBody gzEnc gdata wopts).length < 2 ^ 32)
    (hwopts : wopts < 2 ^ 32)
    (hgbytes : ∀ b ∈ gzipBody gzEnc gdata wopts, b < 2 ^ 32)
    (hgcap : 16 + (gzipBody gzEnc gdata wopts).length ≤ gcap) :
    (GWriter.writeRecord gzEnc ⟨none, wopts, ⟨gcap, [], 0⟩⟩ gdata).1 =
      (16 + (gzipBody gzEnc gdata wopts).length, none) ∧
    GReader.readRecord gzDec
      ⟨none, ropts, ⟨(GWriter.writeRecord gzEnc ⟨none, wopts, ⟨gcap, [], 0⟩⟩ gdata).2.sink.written, j⟩⟩ =
      (.ok gdata, ⟨none, ropts, ⟨[], j + 2⟩⟩) := by
  have hg := gwriter_success gzEnc gdata wopts gcap [] 0 hgcap
  refine ⟨by rw [hg], ?_⟩
  rw [hg]
  simp only [List.nil_append]
  have hrd := greader_readRecord_frame gzDec (gzipBody gzEnc gdata wopts) wopts ropts [] j
    hglen hwopts hgbytes
  rw [List.append_nil] at hrd
  rw [hrd]
  by_cases hc : wopts &&& GzipCompress = GzipCompress
  · rw [if_pos hc]
    have hbody : gzipBody gzEnc gdata wopts = gzEnc gdata := by
      simp [gzipBody, hc]
    rw [hbody, hgz]
  · rw [if_neg hc]
    have hbody : gzipBody gzEnc gdata wopts = gdata := by
      simp [gzipBody, hc]
    rw [hbody]


/-- C1: write-then-read roundtrip for both variants and every flag
combination. -/
theorem claim_c1_roundtrip (enc gzEnc : List Nat → List Nat)
    (dec gzDec : List Nat → Option (List Nat))
    (data gdata : List Nat) (flags wf wopts ropts cap gcap k j : Nat)
    (hdec : dec (enc data) = some data)
    (hgz : gzDec (gzEnc gdata) = some gdata)
    (hlen : (snappyBody enc data (flags ||| wf)).length < 2 ^ 32)
    (heff : flags ||| wf < 2 ^ 32)
    (hbytes : ∀ b ∈ snappyBody enc data (flags ||| wf), b < 2 ^ 32)
    (hcap : 16 + (snappyBody enc data (flags ||| wf)).length ≤ cap)
    (hglen : (gzipBody gzEnc gdata wopts).length < 2 ^ 32)
    (hwopts : wopts < 2 ^ 32)
    (hgbytes : ∀ b ∈ gzipBody gzEnc gdata wopts, b < 2 ^ 32)
    (hgcap : 16 + (gzipBody gzEnc gdata wopts).length ≤ gcap) :
    ((RWriter.writeRecord enc ⟨none, wf, ⟨cap, [], 0⟩⟩ data flags).1 = .ok () ∧
      RReader.readRecord dec
        ⟨none, ⟨(RWriter.writeRecord enc ⟨none, wf, ⟨cap, [], 0⟩⟩ data flags).2.sink.written, k⟩⟩ =
        (.ok data, ⟨none, ⟨[], k + 2⟩⟩)) ∧
    ((GWriter.writeRecord gzEnc ⟨none, wopts, ⟨gcap, [], 0⟩⟩ gdata).1 =
        (16 + (gzipBody gzEnc gdata wopts).length, none) ∧
      GReader.readRecord gzDec
        ⟨none, ropts,
          ⟨(GWriter.writeRecord gzEnc ⟨none, wopts, ⟨gcap, [], 0⟩⟩ gdata).2.sink.written, j⟩⟩ =
        (.ok gdata, ⟨none, ropts, ⟨[], j + 2⟩⟩)) :=
  ⟨roundtrip_snappy enc dec data flags wf cap k hdec hlen heff hbytes hcap,
   roundtrip_gzip gzEnc gzDec gdata wopts ropts gcap j hgz hglen hwopts hgbytes hgcap⟩

/-- Witness for C1: snappy variant with the identity codec on `[104,105]`
(compression path, flags 0), gzip variant on `[7,8,9]` with options
`BodyChecksum`. -/
theorem claim_c1_roundtrip_witness :
    ((RWriter.writeRecord (fun l => l) ⟨none, 0, ⟨100, [], 0⟩⟩ [104, 105] 0).1 = .ok () ∧
      RReader.readRecord some
        ⟨none, ⟨(RWriter.writeRecord (fun l => l) ⟨none, 0, ⟨100, [], 0⟩⟩ [104, 105] 0).2.sink.written, 0⟩⟩ =
        (.ok [104, 105], ⟨none, ⟨[], 2⟩⟩)) ∧
    ((GWriter.writeRecord (fun l => l) ⟨none, 2, ⟨100, [], 0⟩⟩ [7, 8, 9]).1 =
        (16 + (gzipBody (fun l => l) [7, 8, 9] 2).length, none) ∧
      GReader.readRecord some
        ⟨none, 2, ⟨(GWriter.writeRecord (fun l => l) ⟨none, 2, ⟨100, [], 0⟩⟩ [7, 8, 9]).2.sink.written, 0⟩⟩ =
        (.ok [7, 8, 9], ⟨none, 2, ⟨[], 2⟩⟩)) :=
  claim_c1_roundtrip (fun l => l) (fun l => l) some some [104, 105] [7, 8, 9]
    0 0 2 2 100 100 0 0 rfl rfl (by decide) (by decide) (by decide) (by decide)
    (by decide) (by decide) (by decide) (by decide)


/-- C10: the snappy variant always appends a 4-byte CRC32 trailer — every
frame occupies 12 + bodyLength + 4 bytes regardless of flags — and
`readBody` always consumes bodyLength + 4 bytes and verifies the trailer
checksum unconditionally (it takes no flag input at all). -/
theorem claim_c10_trailer_always (enc : List Nat → List Nat) (data : List Nat)
    (flags wf cap : Nat) (w : List Nat) (k : Nat)
    (hcap : 16 + (snappyBody enc data (flags ||| wf)).length ≤ cap)
    (L : Nat) (body tr rest : List Nat) (e0 : Option RecErr) (j : Nat)
    (hb : body.length = L) (ht : tr.length = 4) :
    RWriter.writeRecord enc ⟨none, wf, ⟨cap, w, k⟩⟩ data flags =
      (.ok (), ⟨none, wf,
        ⟨cap - (16 + (snappyBody enc data (flags ||| wf)).length),
         w ++ snappyFrame (snappyBody enc data (flags ||| wf)) (flags ||| wf), k + 3⟩⟩) ∧
    (snappyFrame (snappyBody enc data (flags ||| wf)) (flags ||| wf)).length =
      12 + (snappyBody enc data (flags ||| wf)).length + 4 ∧
    (snappyFrame (snappyBody enc data (flags ||| wf)) (flags ||| wf)).drop
        (12 + (snappyBody enc data (flags ||| wf)).length) =
      toLE4 (crc32 (snappyBody enc data (flags ||| wf))) ∧
    RReader.readBody L ⟨e0, ⟨body ++ tr ++ rest, j⟩⟩ =
      (if getLE4 tr = crc32 body then (.ok body, ⟨e0, ⟨rest, j + 1⟩⟩)
       else (.error .checksumE, ⟨some .checksumE, ⟨rest, j + 1⟩⟩)) := by
  refine ⟨rwriter_success enc data flags wf cap w k hcap, snappyFrame_length _ _, ?_, ?_⟩
  · have hpre : (RecordHeader.encode
        ⟨(snappyBody enc data (flags ||| wf)).length % 2 ^ 32, (flags ||| wf) % 2 ^ 32⟩ ++
        snappyBody enc data (flags ||| wf)).length =
        12 + (snappyBody enc data (flags ||| wf)).length := by
      simp [encode_length]
    rw [show snappyFrame (snappyBody enc data (flags ||| wf)) (flags ||| wf) =
        (RecordHeader.encode
            ⟨(snappyBody enc data (flags ||| wf)).length % 2 ^ 32, (flags ||| wf) % 2 ^ 32⟩ ++
          snappyBody enc data (flags ||| wf)) ++
          toLE4 (crc32 (snappyBody enc data (flags ||| wf))) from rfl]
    exact List.drop_left' hpre
  · split
    · next hEq => exact rreader_readBody_ok L body tr rest e0 j hb ht hEq
    · next hNe => exact rreader_readBody_badsum L body tr rest e0 j hb ht hNe

/-- Witness for C10 at a concrete record and a concrete mismatching
trailer. -/
theorem claim_c10_trailer_always_witness :
    RWriter.writeRecord (fun l => l) ⟨none, 0, ⟨100, [], 0⟩⟩ [1] 0 =
      (.ok (), ⟨none, 0,
        ⟨100 - (16 + (snappyBody (fun l => l) [1] 0).length),
         [] ++ snappyFrame (snappyBody (fun l => l) [1] 0) 0, 3⟩⟩) ∧
    (snappyFrame (snappyBody (fun l => l) [1] 0) 0).length =
      12 + (snappyBody (fun l => l) [1] 0).length + 4 ∧
    (snappyFrame (snappyBody (fun l => l) [1] 0) 0).drop
        (12 + (snappyBody (fun l => l) [1] 0).length) =
      toLE4 (crc32 (snappyBody (fun l => l) [1] 0)) ∧
    RReader.readBody 1 ⟨none, ⟨[9] ++ [0, 0, 0, 0] ++ [], 0⟩⟩ =
      (if getLE4 [0, 0, 0, 0] = crc32 [9] then (.ok [9], ⟨none, ⟨[], 1⟩⟩)
       else (.error .checksumE, ⟨some .checksumE, ⟨[], 1⟩⟩)) := by
  have h := claim_c10_trailer_always (fun l => l) [1] 0 0 100 [] 0 (by decide)
    1 [9] [0, 0, 0, 0] [] none 0 (by decide) (by decide)
  have heff : (0 : Nat) ||| 0 = 0 := by decide
  rw [heff] at h
  exact h


/-- C7: when a compression flag is in effect, the `bodyLength` stored in
the emitted header equals the byte length of the compressed body as
physically written after the header (never the uncompressed input's
length), in both variants. -/
theorem claim_c7_bodyLength_is_compressed (enc gzEnc : List Nat → List Nat)
    (data gdata : List Nat) (flags wf wopts cap gcap : Nat)
    (hc : (flags ||| wf) &&& NoCompression = 0)
    (hgc : wopts &&& GzipCompress = GzipCompress)
    (hlen : (enc data).length < 2 ^ 32) (heff : flags ||| wf < 2 ^ 32)
    (hglen : (gzEnc gdata).length < 2 ^ 32) (hwopts : wopts < 2 ^ 32)
    (hgbytes : ∀ b ∈ gzEnc gdata, b < 2 ^ 32)
    (hcap : 16 + (enc data).length ≤ cap) (hgcap : 16 + (gzEnc gdata).length ≤ gcap) :
    RecordHeader.decode
      (((RWriter.writeRecord enc ⟨none, wf, ⟨cap, [], 0⟩⟩ data flags).2.sink.written).take 12) =
      .ok ⟨(enc data).length, flags ||| wf⟩ ∧
    (((RWriter.writeRecord enc ⟨none, wf, ⟨cap, [], 0⟩⟩ data flags).2.sink.written).drop 12).take
        (enc data).length = enc data ∧
    RecordHeader16.unmarshalBinary
      (((GWriter.writeRecord gzEnc ⟨none, wopts, ⟨gcap, [], 0⟩⟩ gdata).2.sink.written).take 16) =
      .ok ⟨(gzEnc gdata).length, wopts,
        if wopts &&& BodyChecksum = BodyChecksum then crc32 (gzEnc gdata) else 0⟩ ∧
    ((GWriter.writeRecord gzEnc ⟨none, wopts, ⟨gcap, [], 0⟩⟩ gdata).2.sink.written).drop 16 =
      gzEnc gdata := by
  have hbody : snappyBody enc data (flags ||| wf) = enc data := by simp [snappyBody, hc]
  have hgbody : gzipBody gzEnc gdata wopts = gzEnc gdata := by simp [gzipBody, hgc]
  have hw := rwriter_success enc data flags wf cap [] 0 (by rw [hbody]; omega)
  have hg := gwriter_success gzEnc gdata wopts gcap [] 0 (by rw [hgbody]; omega)
  rw [hw, hg]
  simp only [hbody, hgbody, List.nil_append]
  have hfr : snappyFrame (enc data) (flags ||| wf) =
      RecordHeader.encode ⟨(enc data).length % 2 ^ 32, (flags ||| wf) % 2 ^ 32⟩ ++
        (enc data ++ toLE4 (crc32 (enc data))) := by
    simp [snappyFrame, List.append_assoc]
  have hgfr : gzipFrame (gzEnc gdata) wopts =
      RecordHeader16.marshalBinary
        ⟨(gzEnc gdata).length % 2 ^ 32, wopts,
          if wopts &&& BodyChecksum = BodyChecksum then crc32 (gzEnc gdata) else 0⟩ ++
        gzEnc gdata := rfl
  rw [hfr, hgfr]
  rw [List.take_left' (encode_length _), List.drop_left' (encode_length _),
    List.take_left' (marshal_length _), List.drop_left' (marshal_length _),
    List.take_left' rfl]
  refine ⟨?_, rfl, ?_, rfl⟩
  · rw [decode_encode _ (by show (enc data).length % 2 ^ 32 < 2 ^ 32; omega)
      (by show (flags ||| wf) % 2 ^ 32 < 2 ^ 32; omega)]
    rw [Nat.mod_eq_of_lt hlen, Nat.mod_eq_of_lt heff]
  · have hcks : (if wopts &&& BodyChecksum = BodyChecksum then crc32 (gzEnc gdata) else 0) < 2 ^ 32 := by
      split
      · exact crc32_lt _ hgbytes
      · positivity
    rw [unmarshal_marshal _ (by show (gzEnc gdata).length % 2 ^ 32 < 2 ^ 32; omega) hwopts hcks]
    rw [Nat.mod_eq_of_lt hglen]


/-- Witness for C7 with a length-doubling codec: input `[3]` compresses to
`[3, 3]`, and the stored bodyLength is 2 (the compressed size), not 1. -/
theorem claim_c7_bodyLength_is_compressed_witness :
    RecordHeader.decode
      (((RWriter.writeRecord (fun l => l ++ l) ⟨none, 0, ⟨100, [], 0⟩⟩ [3] 0).2.sink.written).take 12) =
      .ok ⟨((fun l => l ++ l) [3] : List Nat).length, 0 ||| 0⟩ ∧
    (((RWriter.writeRecord (fun l => l ++ l) ⟨none, 0, ⟨100, [], 0⟩⟩ [3] 0).2.sink.written).drop 12).take
        ((fun l => l ++ l) [3] : List Nat).length = (fun l => l ++ l) [3] ∧
    RecordHeader16.unmarshalBinary
      (((GWriter.writeRecord (fun l => l ++ l) ⟨none, 3, ⟨100, [], 0⟩⟩ [4]).2.sink.written).take 16) =
      .ok ⟨((fun l => l ++ l) [4] : List Nat).length, 3,
        if 3 &&& BodyChecksum = BodyChecksum then crc32 ((fun l => l ++ l) [4]) else 0⟩ ∧
    ((GWriter.writeRecord (fun l => l ++ l) ⟨none, 3, ⟨100, [], 0⟩⟩ [4]).2.sink.written).drop 16 =
      (fun l => l ++ l) [4] :=
  claim_c7_bodyLength_is_compressed (fun l => l ++ l) (fun l => l ++ l) [3] [4]
    0 0 3 100 100 (by decide) (by decide) (by decide) (by decide) (by decide) (by decide)
    (by decide) (by decide) (by decide)

/-- C8: a successful gzip-variant WriteRecord returns exactly the number
of bytes it appended to the sink: the 16-byte header plus the (possibly
compressed) body.  (The snappy-variant WriteRecord returns no byte
count.) -/
theorem claim_c8_write_count (gzEnc : List Nat → List Nat) (gdata : List Nat)
    (options cap : Nat) (w : List Nat) (k : Nat)
    (hcap : 16 + (gzipBody gzEnc gdata options).length ≤ cap) :
    (GWriter.writeRecord gzEnc ⟨none, options, ⟨cap, w, k⟩⟩ gdata).1 =
      (16 + (gzipBody gzEnc gdata options).length, none) ∧
    (GWriter.writeRecord gzEnc ⟨none, options, ⟨cap, w, k⟩⟩ gdata).2.sink.written =
      w ++ gzipFrame (gzipBody gzEnc gdata options) options ∧
    (w ++ gzipFrame (gzipBody gzEnc gdata options) options).length =
      w.length + (16 + (gzipBody gzEnc gdata options).length) := by
  have hg := gwriter_success gzEnc gdata options cap w k hcap
  rw [hg]
  refine ⟨rfl, rfl, ?_⟩
  rw [List.length_append, gzipFrame_length]

/-- Witness for C8 at the record `[7, 8, 9]`, options `BodyChecksum`. -/
theorem claim_c8_write_count_witness :
    (GWriter.writeRecord (fun l => l) ⟨none, 2, ⟨100, [], 0⟩⟩ [7, 8, 9]).1 =
      (16 + (gzipBody (fun l => l) [7, 8, 9] 2).length, none) ∧
    (GWriter.writeRecord (fun l => l) ⟨none, 2, ⟨100, [], 0⟩⟩ [7, 8, 9]).2.sink.written =
      [] ++ gzipFrame (gzipBody (fun l => l) [7, 8, 9] 2) 2 ∧
    ([] ++ gzipFrame (gzipBody (fun l => l) [7, 8, 9] 2) 2).length =
      ([] : List Nat).length + (16 + (gzipBody (fun l => l) [7, 8, 9] 2).length) :=
  claim_c8_write_count (fun l => l) [7, 8, 9] 2 100 [] 0 (by decide)


set_option maxRecDepth 8192 in
/-- C5 counterexample: a frame written with the checksum flag set
(`BodyChecksum`, writer options 2) holding body `[7]`, with one bit of the
on-wire body flipped (byte 16 of the stream, bit 0, turning the body into
`[6]`): a reader whose own options do not request checksum validation
returns the corrupted body `[6]` as a successful result instead of
`ChecksumMismatch`. -/
theorem claim_c5_counterexample :
    GReader.readRecord (fun _ => none)
      ⟨none, 0,
        ⟨flipBit ((GWriter.writeRecord (fun l => l) ⟨none, 2, ⟨1000, [], 0⟩⟩ [7]).2.sink.written) 16 0,
         0⟩⟩ =
      (.ok [6], ⟨none, 0, ⟨[], 2⟩⟩) ∧
    ([6] : List Nat) ≠ [7] := by
  constructor
  · rfl
  · decide

/-- C5 amended: flipping any single bit of the on-wire body makes the read
fail with `ChecksumMismatch` — unconditionally in the snappy variant
(trailer checksum, no flag), and in the gzip variant provided both the
record's flags and the reader's options carry `BodyChecksum`.  The
corrupted bytes are never returned: the error is produced before
decompression or delivery. -/
theorem claim_c5_body_bitflip (dec gz : List Nat → Option (List Nat))
    (body : List Nat) (eff : Nat) (i j : Nat) (rest : List Nat) (k : Nat)
    (hlen : body.length < 2 ^ 32) (heff : eff < 2 ^ 32)
    (hbytes : ∀ b ∈ body, b < 2 ^ 32)
    (hi : i < body.length) (hj : j < 8)
    (gbody : List Nat) (wopts ropts : Nat) (gi gj : Nat) (grest : List Nat) (m : Nat)
    (hglen : gbody.length < 2 ^ 32) (hwopts : wopts < 2 ^ 32)
    (hgbytes : ∀ b ∈ gbody, b < 2 ^ 32)
    (hrcs : ropts &&& BodyChecksum = BodyChecksum)
    (hwcs : wopts &&& BodyChecksum = BodyChecksum)
    (hgi : gi < gbody.length) (hgj : gj < 8) :
    RReader.readRecord dec
      ⟨none, ⟨RecordHeader.encode ⟨body.length % 2 ^ 32, eff % 2 ^ 32⟩ ++
        (flipBit body i j ++ toLE4 (crc32 body) ++ rest), k⟩⟩ =
      (.error .checksumE, ⟨some .checksumE, ⟨rest, k + 2⟩⟩) ∧
    GReader.readRecord gz
      ⟨none, ropts, ⟨RecordHeader16.marshalBinary ⟨gbody.length % 2 ^ 32, wopts, crc32 gbody⟩ ++
        (flipBit gbody gi gj ++ grest), m⟩⟩ =
      (.error .checksumE, ⟨some .checksumE, ropts, ⟨grest, m + 2⟩⟩) := by
  constructor
  · unfold RReader.readRecord
    rw [readnM_exact (by omega) _ _ (encode_length _) k]
    simp only []
    rw [decode_encode _ (by show body.length % 2 ^ 32 < 2 ^ 32; omega)
      (by show eff % 2 ^ 32 < 2 ^ 32; omega)]
    simp only []
    have hbad := rreader_readBody_badsum (body.length % 2 ^ 32) (flipBit body i j)
      (toLE4 (crc32 body)) rest none (k + 1)
      (by simp [flipBit]; omega) (toLE4_length _)
      (by
        rw [getLE4_toLE4 (crc32_lt body hbytes)]
        exact fun hEq => crc32_flipBit_ne body i j hi (by omega) hEq.symm)
    split
    · exact hbad
    · rw [hbad]
  · unfold GReader.readRecord
    rw [readOnce_exact 16 _ _ (marshal_length _) m]
    simp only []
    rw [show (16 - (RecordHeader16.marshalBinary
        ⟨gbody.length % 2 ^ 32, wopts, crc32 gbody⟩).length) = 0 from by rw [marshal_length]]
    simp only [List.replicate, List.append_nil]
    rw [unmarshal_marshal _ (by show gbody.length % 2 ^ 32 < 2 ^ 32; omega) hwopts
      (crc32_lt gbody hgbytes)]
    simp only []
    rw [readOnce_exact (gbody.length % 2 ^ 32) (flipBit gbody gi gj) grest
      (by simp [flipBit]; omega) (m + 1)]
    simp only [Option.isSome_none, Bool.false_eq_true, false_or]
    rw [if_neg (by simp)]
    rw [if_pos ⟨hrcs, hwcs,
      fun hEq => crc32_flipBit_ne gbody gi gj hgi (by omega) hEq.symm⟩]


/-- Witness for the amended C5: body `[7]` with bit 0 of its only byte
flipped, snappy frame with flags `NoCompression`, gzip frame with
`BodyChecksum` on both record and reader. -/
theorem claim_c5_body_bitflip_witness :
    RReader.readRecord some
      ⟨none, ⟨RecordHeader.encode ⟨([7] : List Nat).length % 2 ^ 32, 1 % 2 ^ 32⟩ ++
        (flipBit [7] 0 0 ++ toLE4 (crc32 [7]) ++ []), 0⟩⟩ =
      (.error .checksumE, ⟨some .checksumE, ⟨[], 2⟩⟩) ∧
    GReader.readRecord some
      ⟨none, 2, ⟨RecordHeader16.marshalBinary ⟨([7] : List Nat).length % 2 ^ 32, 2, crc32 [7]⟩ ++
        (flipBit [7] 0 0 ++ []), 0⟩⟩ =
      (.error .checksumE, ⟨some .checksumE, 2, ⟨[], 2⟩⟩) :=
  claim_c5_body_bitflip some some [7] 1 0 0 [] 0 (by decide) (by decide) (by decide)
    (by decide) (by decide) [7] 2 2 0 0 [] 0 (by decide) (by decide) (by decide)
    (by decide) (by decide) (by decide) (by decide)

end Recordio
